import Mathlib

/-!
Verification of the snapshot transport pipeline of plan-change-capturer
(`src/cmd/transport.go`), as a shallow embedding in Lean 4.

Modelling conventions:
* Go strings are Lean `String`s; byte-level operations are modelled on
  `String.data` (`List Char`), which coincides with Go's byte view on the
  ASCII identifiers the tool manipulates.
* The SQL database, the HTTP diagnostic endpoint and the table/database
  enumeration are external effects; they are modelled as oracle functions
  passed in as parameters (`none` / `false` meaning the call failed).
* The snapshot directory is a pure association `FS` from file names to
  artifact contents.  All artifacts of one run live in a single directory,
  so the common directory prefix that Go joins onto every path is omitted
  and paths are the base file names.
* Errors built with `fmt.Errorf` wrapping are modelled by the inductive
  `Err`, whose constructors carry the same identifying context (SQL text,
  file path, URL) that the Go format strings embed.
-/

namespace PCC

/-- Strip the exact prefix `pre` from `s`: `some` of the rest when `s`
starts with `pre`, `none` otherwise.  List-level model of Go's
`strings.HasPrefix` guard followed by slicing off `len(pre)` bytes. -/
def dropPre : List Char → List Char → Option (List Char)
  | [], s => some s
  | _ :: _, [] => none
  | p :: ps, c :: cs => if p = c then dropPre ps cs else none

/-- Strip the exact suffix `suf` from `s`: `some` of the front when `s`
ends with `suf`, `none` otherwise.  List-level model of Go's
`strings.HasSuffix` guard followed by slicing off `len(suf)` bytes. -/
def dropSuf (suf s : List Char) : Option (List Char) :=
  (dropPre suf.reverse s.reverse).map List.reverse

/-- Split on every occurrence of the separator character, keeping empty
fields, exactly like Go's `strings.Split` with a one-byte separator:
the empty string yields one empty field. -/
def splitOnChar (sep : Char) : List Char → List (List Char)
  | [] => [[]]
  | x :: xs =>
    if x = sep then [] :: splitOnChar sep xs
    else
      match splitOnChar sep xs with
      | [] => [[x]]
      | g :: gs => (x :: g) :: gs

/-! ## Snapshot Codec

File-name builders mirror the `fmt.Sprintf` calls of the source, and
`parseDBTables` mirrors the directory walk that recovers (database, table)
pairs from file names. -/

/-- The schema artifact file name written by `exportDBSchemas`
(transport.go line 147): `schema-<db>.sql`. -/
def schemaArtifactName (db : String) : String := "schema-" ++ db ++ ".sql"

/-- The stats artifact file name written by `exportTableStats`
(transport.go line 226) and built by `statsPath`: `stats-<db>-<table>.json`. -/
def statsFileName (db table : String) : String :=
  "stats-" ++ db ++ "-" ++ table ++ ".json"

/-- The per-table schema file name built by the codec helper `schemaPath`
(transport.go lines 457-459): `schema-<db>-<table>.sql`. -/
def schemaPathName (db table : String) : String :=
  "schema-" ++ db ++ "-" ++ table ++ ".sql"

/-- The field extraction of `parseDBTables` for one file name: strip the
`schema-`/`.sql` or `stats-`/`.json` envelope and split the middle on `-`.
In the Go code the suffix is tested on the whole name while here it is
stripped from the rest after the prefix; the two agree because a name both
starting with `schema-` (or `stats-`) and ending with `.sql` (or `.json`)
is at least 11 characters long (the suffix begins with `.`, which does not
occur in either prefix), so prefix and suffix never overlap. -/
def parseFieldsCore (fname : List Char) : List (List Char) :=
  match dropPre "schema-".data fname with
  | some rest =>
    match dropSuf ".sql".data rest with
    | some mid => splitOnChar '-' mid
    | none => []
  | none =>
    match dropPre "stats-".data fname with
    | some rest =>
      match dropSuf ".json".data rest with
      | some mid => splitOnChar '-' mid
      | none => []
    | none => []

/-- The `len(fields) == 2` acceptance test of `parseDBTables`. -/
def twoFields : List (List Char) → Option (List Char × List Char)
  | [db, t] => some (db, t)
  | _ => none

def parseFileNameCore (fname : List Char) : Option (List Char × List Char) :=
  twoFields (parseFieldsCore fname)

/-- One step of `parseDBTables` (transport.go lines 465-485): the
(database, table) pair recovered from one file base name, or `none` when
the file is skipped. -/
def parseFileName (fname : String) : Option (String × String) :=
  (parseFileNameCore fname.data).map (fun p => (String.mk p.1, String.mk p.2))

/-- `parseDBTables` over the base names of the files of a directory,
modelled as the list of (database, table) pairs the Go code appends into
its `map[string][]string`. -/
def parseDBTables (fnames : List String) : List (String × String) :=
  fnames.filterMap parseFileName

/-! ## Data model and error model -/

/-- Connection options of one endpoint (struct `tidbAccessOptions`). -/
structure tidbAccessOptions where
  addr : String
  statusPort : String
  port : String
  user : String
  password : String
  version : String
deriving DecidableEq

/-- Content of one artifact file.  A schema artifact holds the whole
table-name-to-DDL mapping of a database (the JSON object that
`exportDBSchemas` marshals); a stats artifact holds the opaque byte
payload streamed from the diagnostic endpoint.  The JSON encoding is kept
abstract: writing then reading a schema artifact round-trips the mapping,
exactly as `json.MarshalIndent` / `json.Unmarshal` do. -/
inductive ArtifactContent where
  | schemaMap (m : List (String × String))
  | statsBody (body : String)
deriving DecidableEq

/-- The snapshot directory: file base name to content.  All artifacts of a
run live in one directory, so path = base file name. -/
structure FS where
  files : List (String × ArtifactContent)
deriving DecidableEq

/-- Create-or-truncate write, as `os.OpenFile(O_CREATE|O_WRONLY|O_TRUNC)`
followed by a full write. -/
def FS.write (fs : FS) (p : String) (c : ArtifactContent) : FS :=
  ⟨(p, c) :: fs.files.filter (fun q => q.1 ≠ p)⟩

/-- Read a whole file, as `ioutil.ReadFile`; `none` is the missing-file
error. -/
def FS.read (fs : FS) (p : String) : Option ArtifactContent :=
  (fs.files.find? (fun q => q.1 = p)).map Prod.snd

/-- Errors, mirroring the `fmt.Errorf` values of the source; each
constructor carries the identifying context the Go format string embeds. -/
inductive Err where
  | getTables (db : String)
  | showCreate (sql : String)
  | readFile (path : String)
  | unmarshal (path : String)
  | execSQL (sql : String)
  | httpGet (url : String)
  | wrap (ctx : String) (e : Err)
deriving DecidableEq

deriving instance DecidableEq for Except

/-- Whether an error (through any wrapping) names the given file path, as
the Go error text does for read and unmarshal failures. -/
def Err.mentionsPath : Err → String → Bool
  | .readFile p, q => p == q
  | .unmarshal p, q => p == q
  | .wrap _ e, q => e.mentionsPath q
  | _, _ => false

/-- Go's `strings.ToLower`: lower-case every character (character-wise on
the ASCII identifiers this tool handles). -/
def strToLower (s : String) : String := ⟨s.data.map Char.toLower⟩

/-! ## Filter

The table-selection check is inlined twice in the Go source, once in
`exportDBSchemas` (lines 150-158) and once in `exportStats` (lines
203-211).  The include map (`tablesMap`) and ignore map (`ignoreTables`)
are built in `newTransportCmd` (lines 83-90) from the raw flag values
without any case folding; only the table name being tested is lowered.
The maps are modelled by their key lists, membership by `List.contains`. -/

/-- The selection check inlined in `exportDBSchemas`: skip when the
lowered name is in the ignore map, else, when the include map is
non-empty, keep only names whose lowered form is an include key. -/
def schemaTableSelected (tablesMap ignoreTables : List String) (t : String) : Bool :=
  if ignoreTables.contains (strToLower t) then false
  else if tablesMap.length > 0 then tablesMap.contains (strToLower t)
  else true

/-- The selection check inlined in `exportStats`; textually the same
logic, duplicated in the source. -/
def statsTableSelected (tablesMap ignoreTables : List String) (t : String) : Bool :=
  if ignoreTables.contains (strToLower t) then false
  else if tablesMap.length > 0 then tablesMap.contains (strToLower t)
  else true

/-! ## Database enumeration (`getDBs` / `isSysDB`) -/

def sysDBs : List String :=
  ["INFORMATION_SCHEMA", "METRICS_SCHEMA", "PERFORMANCE_SCHEMA", "mysql"]

def isSysDB (db : String) : Bool :=
  sysDBs.any (fun sysDB => strToLower db == strToLower sysDB)

/-- `getDBs` over the rows returned by `show databases`: keep every row
that is not a system database. -/
def getDBs (rows : List String) : List String :=
  rows.filter (fun dbName => !isSysDB dbName)

/-! ## SQL and URL text builders -/

def showCreateSQL (db t : String) : String :=
  "show create table \x60" ++ db ++ "\x60.\x60" ++ t ++ "\x60"

def createDatabaseSQL (db : String) : String :=
  "create database if not exists \x60" ++ db ++ "\x60"

def useSQL (db : String) : String := "use " ++ db

def loadStatsSQL (path : String) : String :=
  "load stats \x27" ++ path ++ "\x27"

def statsDumpURL (opt : tidbAccessOptions) (db table : String) : String :=
  "http://" ++ opt.addr ++ ":" ++ opt.statusPort ++ "/stats/dump/" ++ db ++ "/" ++ table

/-- Go's `strings.TrimSpace`: drop leading and trailing whitespace. -/
def strTrim (s : String) : String :=
  ⟨((s.data.dropWhile Char.isWhitespace).reverse.dropWhile Char.isWhitespace).reverse⟩

/-! ## Schema export (`exportDBSchemas`, `exportSchemas`)

External effects are oracles: `tablesOf db` is the `getTables` result
(`none` = the `use`/`show tables` round trip failed) and `showCreate db t`
is the single row of `show create table` (`none` = the query or its row
scan failed). -/

/-- The per-table accumulation loop of `exportDBSchemas` (lines 149-175):
for each selected table run `show create table` and record the scanned
(table, createSQL) row; the first failure aborts with the error of that
statement and nothing is written. -/
def collectSchemas (showCreate : String → String → Option (String × String))
    (db : String) (tablesMap ignoreTables : List String) :
    List String → Except Err (List (String × String))
  | [] => .ok []
  | t :: ts =>
    if schemaTableSelected tablesMap ignoreTables t then
      match showCreate db t with
      | none => .error (.showCreate (showCreateSQL db t))
      | some row =>
        match collectSchemas showCreate db tablesMap ignoreTables ts with
        | .error e => .error e
        | .ok m => .ok (row :: m)
    else collectSchemas showCreate db tablesMap ignoreTables ts

/-- `exportDBSchemas` (lines 142-194): gather the selected tables' DDL and
only then open and write the one artifact file `schema-<db>.sql`; any
earlier failure returns without touching the file system. -/
def exportDBSchemas (tablesOf : String → Option (List String))
    (showCreate : String → String → Option (String × String))
    (db : String) (tablesMap ignoreTables : List String) (fs : FS) :
    FS × Except Err Unit :=
  match tablesOf db with
  | none => (fs, .error (.wrap ("get DB: " ++ db ++ " table information") (.getTables db)))
  | some tables =>
    match collectSchemas showCreate db tablesMap ignoreTables tables with
    | .error e => (fs, .error e)
    | .ok m => (fs.write (schemaArtifactName db) (.schemaMap m), .ok ())

/-- `exportSchemas` (lines 133-140): per database, abort on the first
failure, wrapped with the database context. -/
def exportSchemas (tablesOf : String → Option (List String))
    (showCreate : String → String → Option (String × String))
    (dbs : List String) (tablesMap ignoreTables : List String) (fs : FS) :
    FS × Except Err Unit :=
  match dbs with
  | [] => (fs, .ok ())
  | db :: rest =>
    let r := exportDBSchemas tablesOf showCreate db tablesMap ignoreTables fs
    match r.2 with
    | .error e => (r.1, .error (.wrap ("export DB: " ++ db ++ " schemas") e))
    | .ok _ => exportSchemas tablesOf showCreate rest tablesMap ignoreTables r.1

/-! ## Statistics export (`exportTableStats`, `exportStats`) -/

/-- What `http.Get` hands back on success: a status code and a body.
`http.Get` returns an error only on transport failure; an HTTP error
status still yields a response. -/
structure HTTPResponse where
  status : Nat
  body : String
deriving DecidableEq

/-- `exportTableStats` (lines 220-241): `GET` the diagnostic dump and
stream the response body verbatim into `stats-<db>-<table>.json`.  The
status code of a received response is never inspected. -/
def exportTableStats (get : String → String → Option HTTPResponse)
    (opt : tidbAccessOptions) (db table : String) (fs : FS) :
    FS × Except Err Unit :=
  match get db table with
  | none => (fs, .error (.httpGet (statsDumpURL opt db table)))
  | some resp => (fs.write (statsFileName db table) (.statsBody resp.body), .ok ())

/-- The inner table loop of `exportStats` (lines 202-215): the first
per-table failure returns immediately with a wrapped error, skipping the
remaining tables. -/
def exportStatsTables (get : String → String → Option HTTPResponse)
    (opt : tidbAccessOptions) (db : String) (tables : List String)
    (tablesMap ignoreTables : List String) (fs : FS) : FS × Except Err Unit :=
  match tables with
  | [] => (fs, .ok ())
  | t :: ts =>
    if statsTableSelected tablesMap ignoreTables t then
      let r := exportTableStats get opt db t fs
      match r.2 with
      | .error e =>
        (r.1, .error (.wrap ("export DB: " ++ db ++ " table: " ++ t ++ " statistics") e))
      | .ok _ => exportStatsTables get opt db ts tablesMap ignoreTables r.1
    else exportStatsTables get opt db ts tablesMap ignoreTables fs

/-- `exportStats` (lines 196-218): per database, list tables then export
each selected table's stats; any error propagates out at once. -/
def exportStats (get : String → String → Option HTTPResponse)
    (opt : tidbAccessOptions) (tablesOf : String → Option (List String))
    (dbs : List String) (tablesMap ignoreTables : List String) (fs : FS) :
    FS × Except Err Unit :=
  match dbs with
  | [] => (fs, .ok ())
  | db :: rest =>
    match tablesOf db with
    | none => (fs, .error (.wrap ("get DB: " ++ db ++ " table information") (.getTables db)))
    | some tables =>
      let r := exportStatsTables get opt db tables tablesMap ignoreTables fs
      match r.2 with
      | .error e => (r.1, .error e)
      | .ok _ => exportStats get opt tablesOf rest tablesMap ignoreTables r.1

/-- The export phase of `newTransportCmd` (lines 76-98): schemas first,
then statistics; an error from either aborts the run with the
corresponding wrapping. -/
def runExport (tablesOf : String → Option (List String))
    (showCreate : String → String → Option (String × String))
    (get : String → String → Option HTTPResponse) (opt : tidbAccessOptions)
    (dbs : List String) (tablesMap ignoreTables : List String) (fs : FS) :
    FS × Except Err Unit :=
  let s := exportSchemas tablesOf showCreate dbs tablesMap ignoreTables fs
  match s.2 with
  | .error e => (s.1, .error (.wrap "export schemas" e))
  | .ok _ =>
    let st := exportStats get opt tablesOf dbs tablesMap ignoreTables s.1
    match st.2 with
    | .error e => (st.1, .error (.wrap "export statistics information" e))
    | .ok _ => (st.1, .ok ())

/-! ## Import side (`importSchemas`, `importStats`)

The relational client's `Exec` is the oracle `execOk : String → Bool`
(false = that statement failed).  Traces record the driver-visible
actions, so that "statistics import was never invoked" is expressible. -/

inductive Action where
  | registerLocalFile (path : String)
  | exec (sql : String)
deriving DecidableEq

/-- Byte-wise lexicographic order on names, as `filepath.Glob`'s sorted
output uses. -/
def charListLt : List Char → List Char → Bool
  | [], [] => false
  | [], _ :: _ => true
  | _ :: _, [] => false
  | a :: as, b :: bs =>
    if a < b then true
    else if b < a then false
    else charListLt as bs

def insertSorted (s : String) : List String → List String
  | [] => [s]
  | x :: xs => if charListLt s.data x.data then s :: x :: xs else x :: insertSorted s xs

def sortStrings : List String → List String
  | [] => []
  | x :: xs => insertSorted x (sortStrings xs)

/-- Whether a file name matches the glob pattern
`stats-<db>-*[.]json` of `importStats` (line 274): literal prefix
`stats-<db>-`, any middle, literal suffix `.json`. -/
def statsGlobMatch (db name : String) : Bool :=
  match dropPre ("stats-" ++ db ++ "-").data name.data with
  | some rest => (dropSuf ".json".data rest).isSome
  | none => false

/-- `filepath.Glob` over the snapshot directory: the matching file names
in lexicographic order. -/
def globStats (db : String) (fs : FS) : List String :=
  sortStrings ((fs.files.map Prod.fst).filter (statsGlobMatch db))

/-- The per-file loop of `importStats` (lines 278-284): register the file
with the driver and execute `load stats`; the first failure returns that
error immediately. -/
def importStatsFiles (execOk : String → Bool) : List String → List Action × Except Err Unit
  | [] => ([], .ok ())
  | f :: rest =>
    let sql := loadStatsSQL f
    if execOk sql then
      let r := importStatsFiles execOk rest
      (Action.registerLocalFile f :: Action.exec sql :: r.1, r.2)
    else ([Action.registerLocalFile f, Action.exec sql], .error (.execSQL sql))

/-- `importStats` (lines 272-287): per database, glob its stats artifacts
and load each one; any error propagates out at once. -/
def importStats (execOk : String → Bool) (dbs : List String) (fs : FS) :
    List Action × Except Err Unit :=
  match dbs with
  | [] => ([], .ok ())
  | db :: rest =>
    let r := importStatsFiles execOk (globStats db fs)
    match r.2 with
    | .error e => (r.1, .error e)
    | .ok _ =>
      let r2 := importStats execOk rest fs
      (r.1 ++ r2.1, r2.2)

/-- The DDL replay loop of `importSchemas` (lines 261-266): execute each
stored statement, trimmed; the first failure aborts with a wrapped error. -/
def execDDLs (execOk : String → Bool) (path : String) :
    List (String × String) → List Action × Except Err Unit
  | [] => ([], .ok ())
  | (_, s) :: rest =>
    let s2 := strTrim s
    if execOk s2 then
      let r := execDDLs execOk path rest
      (Action.exec s2 :: r.1, r.2)
    else
      ([Action.exec s2],
       .error (.wrap ("execute SQL: " ++ s2 ++ " from " ++ path) (.execSQL s2)))

/-- One database of `importSchemas` (lines 244-268): create the database,
switch to it, read and decode `schema-<db>.sql`, then replay every stored
DDL statement. -/
def importDBSchema (execOk : String → Bool) (db : String) (fs : FS) :
    List Action × Except Err Unit :=
  let c := createDatabaseSQL db
  if execOk c then
    let u := useSQL db
    if execOk u then
      let path := schemaArtifactName db
      match fs.read path with
      | none => ([Action.exec c, Action.exec u], .error (.readFile path))
      | some (.statsBody _) => ([Action.exec c, Action.exec u], .error (.unmarshal path))
      | some (.schemaMap m) =>
        let r := execDDLs execOk path m
        (Action.exec c :: Action.exec u :: r.1, r.2)
    else
      ([Action.exec c, Action.exec u],
       .error (.wrap ("switch to DB: " ++ db) (.execSQL u)))
  else ([Action.exec c], .error (.wrap ("create DB: " ++ db) (.execSQL c)))

/-- `importSchemas` (lines 243-270): databases in order, first failure
aborts. -/
def importSchemas (execOk : String → Bool) (dbs : List String) (fs : FS) :
    List Action × Except Err Unit :=
  match dbs with
  | [] => ([], .ok ())
  | db :: rest =>
    let r := importDBSchema execOk db fs
    match r.2 with
    | .error e => (r.1, .error e)
    | .ok _ =>
      let r2 := importSchemas execOk rest fs
      (r.1 ++ r2.1, r2.2)

/-- The import phase of `newTransportCmd` (lines 99-112): schema import
first; only when it succeeds is statistics import invoked.  Returns the
schema-phase trace, the stats-phase trace and the outcome. -/
def runImport (execOk : String → Bool) (dbs : List String) (fs : FS) :
    List Action × List Action × Except Err Unit :=
  let s := importSchemas execOk dbs fs
  match s.2 with
  | .error e => (s.1, [], .error (.wrap "import schemas" e))
  | .ok _ =>
    let st := importStats execOk dbs fs
    match st.2 with
    | .error e => (s.1, st.1, .error (.wrap "import statistics information" e))
    | .ok _ => (s.1, st.1, .ok ())

/-! ## Concrete fixtures used by witnesses and counterexamples -/

/-- A fixed endpoint configuration. -/
def optFix : tidbAccessOptions :=
  ⟨"127.0.0.1", "10080", "4000", "root", "", ""⟩

/-- Every database holds tables t1, t2, t3. -/
def tablesOf3 : String → Option (List String) := fun _ => some ["t1", "t2", "t3"]

/-- Every database holds the single table t1. -/
def tablesOf1 : String → Option (List String) := fun _ => some ["t1"]

/-- A relational client whose `show create table` always succeeds. -/
def showCreateOK : String → String → Option (String × String) :=
  fun _ t => some (t, "create table " ++ t)

/-- A diagnostic endpoint whose fetch fails for table t2 only. -/
def getFailT2 : String → String → Option HTTPResponse :=
  fun _ t => if t = "t2" then none else some ⟨200, "payload"⟩

/-- A diagnostic endpoint that always answers 200. -/
def getOK : String → String → Option HTTPResponse := fun _ _ => some ⟨200, "payload"⟩

/-- A relational client whose `Exec` always succeeds. -/
def execAllOk : String → Bool := fun _ => true

/-- A relational client whose `Exec` fails exactly on loading the stats
artifact of db1.t1. -/
def execFailT1 : String → Bool :=
  fun sql => !(sql == loadStatsSQL "stats-db1-t1.json")

/-- A snapshot directory holding db1's (empty) schema artifact and the
stats artifacts of db1.t1 and db1.t2. -/
def fsStats2 : FS :=
  ⟨[("schema-db1.sql", .schemaMap []),
    ("stats-db1-t1.json", .statsBody "a"),
    ("stats-db1-t2.json", .statsBody "b")]⟩

/-- The empty snapshot directory. -/
def fs0 : FS := ⟨[]⟩

/-! ## Helper lemmas -/

theorem dropPre_some_iff (p : List Char) : ∀ (s r : List Char),
    dropPre p s = some r ↔ s = p ++ r := by
  induction p with
  | nil => intro s r; simp [dropPre]
  | cons a ps ih =>
    intro s r
    cases s with
    | nil => simp [dropPre]
    | cons b t =>
      by_cases hab : a = b
      · subst hab
        simp [dropPre, ih]
      · simp [dropPre, hab]
        intro h
        exact absurd h.symm hab

theorem dropSuf_some_iff (suf s r : List Char) :
    dropSuf suf s = some r ↔ s = r ++ suf := by
  constructor
  · intro h
    rcases Option.map_eq_some'.mp h with ⟨a, ha, hrev⟩
    have hs := (dropPre_some_iff suf.reverse s.reverse a).mp ha
    subst hrev
    have := congrArg List.reverse hs
    simpa using this
  · intro h
    subst h
    have h2 : dropPre suf.reverse (suf.reverse ++ r.reverse) = some r.reverse :=
      (dropPre_some_iff suf.reverse (suf.reverse ++ r.reverse) r.reverse).mpr rfl
    simp [dropSuf, h2]

theorem splitOnChar_ne_nil (sep : Char) (s : List Char) :
    splitOnChar sep s ≠ [] := by
  cases s with
  | nil => simp [splitOnChar]
  | cons x xs =>
    by_cases h : x = sep
    · simp [splitOnChar, h]
    · simp only [splitOnChar, if_neg h]
      cases hs : splitOnChar sep xs <;> simp

theorem splitOnChar_single_iff (sep : Char) : ∀ (s a : List Char),
    splitOnChar sep s = [a] ↔ s = a ∧ sep ∉ a := by
  intro s
  induction s with
  | nil =>
    intro a
    constructor
    · intro h
      simp [splitOnChar] at h
      subst h; simp
    · rintro ⟨h, _⟩
      subst h; simp [splitOnChar]
  | cons x xs ih =>
    intro a
    by_cases h : x = sep
    · subst h
      simp only [splitOnChar, if_pos rfl]
      constructor
      · intro hcons
        have h1 : ([] : List Char) = a ∧ splitOnChar x xs = [] := by
          have := List.cons.injEq ([] : List Char) (splitOnChar x xs) a [] ▸ hcons
          exact ⟨(List.cons.inj hcons).1, (List.cons.inj hcons).2⟩
        exact absurd h1.2 (splitOnChar_ne_nil x xs)
      · rintro ⟨h1, h2⟩
        exfalso
        exact h2 (h1 ▸ List.mem_cons_self x xs)
    · simp only [splitOnChar, if_neg h]
      cases hs : splitOnChar sep xs with
      | nil => exact absurd hs (splitOnChar_ne_nil sep xs)
      | cons g gs =>
        constructor
        · intro hcons
          have h1 : x :: g = a := (List.cons.inj hcons).1
          have h2 : gs = [] := (List.cons.inj hcons).2
          subst h2
          have := (ih g).mp hs
          refine ⟨by rw [← h1, this.1], ?_⟩
          rw [← h1]
          intro hmem
          rcases List.mem_cons.mp hmem with h3 | h3
          · exact h (h3.symm)
          · exact this.2 h3
        · rintro ⟨h1, h2⟩
          cases a with
          | nil => exact absurd h1 (List.cons_ne_nil x xs)
          | cons y ys =>
            have hxy : x = y := (List.cons.inj h1).1
            have hys : xs = ys := (List.cons.inj h1).2
            have hsep : sep ∉ ys := fun hm => h2 (List.mem_cons_of_mem y hm)
            have h4 := (ih ys).mpr ⟨hys, hsep⟩
            rw [h4] at hs
            have hg : ys = g := (List.cons.inj hs).1
            have hgse : gs = [] := ((List.cons.inj hs).2).symm
            subst hgse
            rw [← hg]
            simp [hxy]

theorem splitOnChar_pair_iff (sep : Char) : ∀ (s a b : List Char),
    splitOnChar sep s = [a, b] ↔ s = a ++ sep :: b ∧ sep ∉ a ∧ sep ∉ b := by
  intro s
  induction s with
  | nil =>
    intro a b
    constructor
    · intro h; simp [splitOnChar] at h
    · rintro ⟨h, _, _⟩
      exact absurd h.symm (by simp)
  | cons x xs ih =>
    intro a b
    by_cases h : x = sep
    · subst h
      simp only [splitOnChar, if_pos rfl]
      constructor
      · intro hcons
        have h1 : ([] : List Char) = a := (List.cons.inj hcons).1
        have h2 : splitOnChar x xs = [b] := (List.cons.inj hcons).2
        have h3 := (splitOnChar_single_iff x xs b).mp h2
        refine ⟨?_, ?_, h3.2⟩
        · rw [← h1, h3.1]; rfl
        · rw [← h1]; simp
      · rintro ⟨h1, h2, h3⟩
        have ha : a = [] := by
          cases a with
          | nil => rfl
          | cons y ys =>
            exfalso
            have : x = y := (List.cons.inj h1).1
            exact h2 (this ▸ List.mem_cons_self y ys)
        subst ha
        have hxs : xs = b := (List.cons.inj h1).2
        have h5 := (splitOnChar_single_iff x xs b).mpr ⟨hxs, h3⟩
        simp [h5]
    · simp only [splitOnChar, if_neg h]
      cases hs : splitOnChar sep xs with
      | nil => exact absurd hs (splitOnChar_ne_nil sep xs)
      | cons g gs =>
        constructor
        · intro hcons
          have h1 : x :: g = a := (List.cons.inj hcons).1
          have h2 : gs = [b] := (List.cons.inj hcons).2
          subst h2
          have h3 := (ih g b).mp hs
          refine ⟨?_, ?_, h3.2.2⟩
          · rw [← h1, h3.1]; rfl
          · rw [← h1]
            intro hmem
            rcases List.mem_cons.mp hmem with h4 | h4
            · exact h h4.symm
            · exact h3.2.1 h4
        · rintro ⟨h1, h2, h3⟩
          cases a with
          | nil =>
            exfalso
            have : x = sep := (List.cons.inj h1).1
            exact h this
          | cons y ys =>
            have hxy : x = y := (List.cons.inj h1).1
            have hys : xs = ys ++ sep :: b := (List.cons.inj h1).2
            have hsy : sep ∉ ys := fun hm => h2 (List.mem_cons_of_mem y hm)
            have h4 := (ih ys b).mpr ⟨hys, hsy, h3⟩
            rw [h4] at hs
            have hg : ys = g := (List.cons.inj hs).1
            have hgse : gs = [b] := ((List.cons.inj hs).2).symm
            subst hgse
            rw [← hg]
            simp [hxy]

theorem data_append : ∀ (a b : String), (a ++ b).data = a.data ++ b.data
  | ⟨_⟩, ⟨_⟩ => rfl

theorem schema_stats_conflict (x y : List Char) :
    "schema-".data ++ x ≠ "stats-".data ++ y := by
  intro h
  have h1 : "schema-".data = 's' :: 'c' :: 'h' :: 'e' :: 'm' :: 'a' :: '-' :: [] := rfl
  have h2 : "stats-".data = 's' :: 't' :: 'a' :: 't' :: 's' :: '-' :: [] := rfl
  rw [h1, h2] at h
  have e1 := (List.cons.inj h).2
  have e2 := (List.cons.inj e1).1
  exact absurd e2 (by decide)

theorem twoFields_some_iff (l : List (List Char)) (d t : List Char) :
    twoFields l = some (d, t) ↔ l = [d, t] := by
  match l with
  | [] => simp [twoFields]
  | [a] => simp [twoFields]
  | [a, b] => simp [twoFields]
  | a :: b :: c :: r => simp [twoFields]

theorem parseFileNameCore_some_iff (n d t : List Char) :
    parseFileNameCore n = some (d, t) ↔
      (('-' ∉ d ∧ '-' ∉ t) ∧
        (n = "schema-".data ++ ((d ++ '-' :: t) ++ ".sql".data) ∨
         n = "stats-".data ++ ((d ++ '-' :: t) ++ ".json".data))) := by
  unfold parseFileNameCore parseFieldsCore
  split
  · rename_i rest h1
    have hn : n = "schema-".data ++ rest := (dropPre_some_iff _ _ _).mp h1
    split
    · rename_i mid h2
      have hrest : rest = mid ++ ".sql".data := (dropSuf_some_iff _ _ _).mp h2
      rw [twoFields_some_iff, splitOnChar_pair_iff]
      constructor
      · rintro ⟨hmid, hd, ht⟩
        refine ⟨⟨hd, ht⟩, Or.inl ?_⟩
        rw [hn, hrest, hmid]
      · rintro ⟨⟨hd, ht⟩, hor | hor⟩
        · have h3 : rest = (d ++ '-' :: t) ++ ".sql".data :=
            List.append_cancel_left (hn.symm.trans hor)
          have h4 : mid ++ ".sql".data = (d ++ '-' :: t) ++ ".sql".data :=
            hrest.symm.trans h3
          exact ⟨List.append_cancel_right h4, hd, ht⟩
        · exact absurd (hn.symm.trans hor) (schema_stats_conflict _ _)
    · rename_i h2
      constructor
      · intro h; exact absurd h (by simp [twoFields])
      · rintro ⟨⟨hd, ht⟩, hor | hor⟩
        · have h3 : rest = (d ++ '-' :: t) ++ ".sql".data :=
            List.append_cancel_left (hn.symm.trans hor)
          have h4 : dropSuf ".sql".data rest = some (d ++ '-' :: t) :=
            (dropSuf_some_iff _ _ _).mpr h3
          rw [h2] at h4
          exact absurd h4 (by simp)
        · exact absurd (hn.symm.trans hor) (schema_stats_conflict _ _)
  · rename_i h1
    split
    · rename_i rest h3
      have hn : n = "stats-".data ++ rest := (dropPre_some_iff _ _ _).mp h3
      split
      · rename_i mid h4
        have hrest : rest = mid ++ ".json".data := (dropSuf_some_iff _ _ _).mp h4
        rw [twoFields_some_iff, splitOnChar_pair_iff]
        constructor
        · rintro ⟨hmid, hd, ht⟩
          refine ⟨⟨hd, ht⟩, Or.inr ?_⟩
          rw [hn, hrest, hmid]
        · rintro ⟨⟨hd, ht⟩, hor | hor⟩
          · exact absurd (hor.symm.trans hn) (schema_stats_conflict _ _)
          · have h5 : rest = (d ++ '-' :: t) ++ ".json".data :=
              List.append_cancel_left (hn.symm.trans hor)
            have h6 : mid ++ ".json".data = (d ++ '-' :: t) ++ ".json".data :=
              hrest.symm.trans h5
            exact ⟨List.append_cancel_right h6, hd, ht⟩
      · rename_i h4
        constructor
        · intro h; exact absurd h (by simp [twoFields])
        · rintro ⟨⟨hd, ht⟩, hor | hor⟩
          · exact absurd (hor.symm.trans hn) (schema_stats_conflict _ _)
          · have h5 : rest = (d ++ '-' :: t) ++ ".json".data :=
              List.append_cancel_left (hn.symm.trans hor)
            have h6 : dropSuf ".json".data rest = some (d ++ '-' :: t) :=
              (dropSuf_some_iff _ _ _).mpr h5
            rw [h4] at h6
            exact absurd h6 (by simp)
    · rename_i h3
      constructor
      · intro h; exact absurd h (by simp [twoFields])
      · rintro ⟨⟨hd, ht⟩, hor | hor⟩
        · have h5 : dropPre "schema-".data n = some ((d ++ '-' :: t) ++ ".sql".data) :=
            (dropPre_some_iff _ _ _).mpr hor
          rw [h1] at h5
          exact absurd h5 (by simp)
        · have h5 : dropPre "stats-".data n = some ((d ++ '-' :: t) ++ ".json".data) :=
            (dropPre_some_iff _ _ _).mpr hor
          rw [h3] at h5
          exact absurd h5 (by simp)

theorem parseFileName_some_iff (n d t : String) :
    parseFileName n = some (d, t) ↔
      (('-' ∉ d.data ∧ '-' ∉ t.data) ∧
        (n.data = "schema-".data ++ ((d.data ++ '-' :: t.data) ++ ".sql".data) ∨
         n.data = "stats-".data ++ ((d.data ++ '-' :: t.data) ++ ".json".data))) := by
  rw [← parseFileNameCore_some_iff]
  cases d with
  | mk dl =>
    cases t with
    | mk tl =>
      unfold parseFileName
      cases hc : parseFileNameCore n.data with
      | none => simp
      | some p =>
        obtain ⟨p1, p2⟩ := p
        simp [Prod.ext_iff, String.ext_iff]

/-! ## Claim theorems -/

/-- C2: for every table name and filter set, the selection decision is the
same in schema export and statistics export, and it satisfies the
include/exclude invariant: with a non-empty include list a table is
exported exactly when its lowered name is an include entry and not an
ignore entry; with an empty include list, exactly when it is not an ignore
entry.  In particular, over tables t1, t2, t3 with include t1, t3 and
ignore t3, exactly t1 is selected and exported by both transports: the
schema artifact holds only t1's DDL and only t1's stats artifact is
fetched. -/
theorem C2_filter_invariant :
    ∀ (t : String) (tablesMap ignoreTables : List String),
      schemaTableSelected tablesMap ignoreTables t
        = statsTableSelected tablesMap ignoreTables t
      ∧ schemaTableSelected tablesMap ignoreTables t
        = (if tablesMap.isEmpty then !(ignoreTables.contains (strToLower t))
           else (tablesMap.contains (strToLower t)
                 && !(ignoreTables.contains (strToLower t))))
      ∧ List.filter (schemaTableSelected ["t1", "t3"] ["t3"]) ["t1", "t2", "t3"] = ["t1"]
      ∧ List.filter (statsTableSelected ["t1", "t3"] ["t3"]) ["t1", "t2", "t3"] = ["t1"]
      ∧ exportDBSchemas tablesOf3 showCreateOK "db1" ["t1", "t3"] ["t3"] fs0
        = (fs0.write (schemaArtifactName "db1") (.schemaMap [("t1", "create table t1")]), .ok ())
      ∧ exportStats getOK optFix tablesOf3 ["db1"] ["t1", "t3"] ["t3"] fs0
        = (fs0.write (statsFileName "db1" "t1") (.statsBody "payload"), .ok ()) := by
  intro t tablesMap ignoreTables
  refine ⟨rfl, ?_, by decide, by decide, by decide, by decide⟩
  cases hig : ignoreTables.contains (strToLower t) <;>
    simp only [schemaTableSelected, hig] <;>
      cases tablesMap <;> simp

/-- C3 counterexample: filter evaluation is not case-insensitive in the
filter-list entries.  The table name t1 passes the include filter written
as t1 but fails the same filter written as T1, so changing the letter case
of an include entry changes the exported set. -/
theorem C3_counterexample :
    schemaTableSelected ["t1"] [] "t1" = true
    ∧ schemaTableSelected ["T1"] [] "t1" = false
    ∧ List.filter (schemaTableSelected ["t1"] []) ["t1"] = ["t1"]
    ∧ List.filter (schemaTableSelected ["T1"] []) ["t1"] = []
    ∧ statsTableSelected ["t1"] [] "t1" = true
    ∧ statsTableSelected ["T1"] [] "t1" = false := by
  decide

/-- C3 amended: the filter is case-insensitive in the table name only —
two table names with the same lower-casing always receive the same
decision from both transports' checks — while include and exclude entries
are matched verbatim (case-sensitively) against the lowered table name. -/
theorem C3_amended_name_case_insensitive
    (tablesMap ignoreTables : List String) (t u : String)
    (h : strToLower t = strToLower u) :
    schemaTableSelected tablesMap ignoreTables t
      = schemaTableSelected tablesMap ignoreTables u
    ∧ statsTableSelected tablesMap ignoreTables t
      = statsTableSelected tablesMap ignoreTables u := by
  constructor <;> simp [schemaTableSelected, statsTableSelected, h]

theorem C3_amended_witness :
    schemaTableSelected ["tablea"] ["x"] "TableA"
      = schemaTableSelected ["tablea"] ["x"] "tablea" :=
  (C3_amended_name_case_insensitive ["tablea"] ["x"] "TableA" "tablea" (by decide)).1

/-- C10: every database list returned by `getDBs` excludes the system
databases: no element is case-insensitively equal to INFORMATION_SCHEMA,
METRICS_SCHEMA, PERFORMANCE_SCHEMA or mysql, whatever rows the relational
client returns. -/
theorem C10_getDBs_excludes_system_databases (rows : List String) (x : String)
    (hx : x ∈ getDBs rows) :
    strToLower x ≠ strToLower "INFORMATION_SCHEMA"
    ∧ strToLower x ≠ strToLower "METRICS_SCHEMA"
    ∧ strToLower x ≠ strToLower "PERFORMANCE_SCHEMA"
    ∧ strToLower x ≠ strToLower "mysql" := by
  have h := (List.mem_filter.mp hx).2
  simp only [isSysDB, sysDBs, List.any_cons, List.any_nil, Bool.not_eq_true',
    Bool.or_eq_false_iff, beq_eq_false_iff_ne, ne_eq] at h
  exact ⟨h.1, h.2.1, h.2.2.1, h.2.2.2.1⟩

theorem C10_witness :
    strToLower "Test" ≠ strToLower "INFORMATION_SCHEMA"
    ∧ strToLower "Test" ≠ strToLower "METRICS_SCHEMA"
    ∧ strToLower "Test" ≠ strToLower "PERFORMANCE_SCHEMA"
    ∧ strToLower "Test" ≠ strToLower "mysql" :=
  C10_getDBs_excludes_system_databases ["Test", "mysql"] "Test" (by decide)

/-- C8: the decode step recovers exactly the (database, table) pairs of
file names that are a recognized prefix, a dash-free database field, the
reserved separator, a dash-free table field and the matching suffix; every
other file contributes no entry (and the decode is total — it never
fails). -/
theorem C8_decode_exact (fnames : List String) (d t : String) :
    (d, t) ∈ parseDBTables fnames ↔
      ∃ n ∈ fnames,
        ('-' ∉ d.data ∧ '-' ∉ t.data)
        ∧ (n.data = "schema-".data ++ ((d.data ++ '-' :: t.data) ++ ".sql".data)
           ∨ n.data = "stats-".data ++ ((d.data ++ '-' :: t.data) ++ ".json".data)) := by
  unfold parseDBTables
  rw [List.mem_filterMap]
  constructor
  · rintro ⟨n, hn, hp⟩
    exact ⟨n, hn, (parseFileName_some_iff n d t).mp hp⟩
  · rintro ⟨n, hn, hcond⟩
    exact ⟨n, hn, (parseFileName_some_iff n d t).mpr hcond⟩

/-- C4 counterexample: the schema artifact name actually written by schema
export for database db1 is schema-db1.sql, and decoding a directory
holding exactly that file recovers nothing — the database is not recovered
from the written schema artifact name (its middle splits into one field,
not two), while the stats artifact name of (db1, t1) does decode back to
(db1, t1). -/
theorem C4_counterexample :
    schemaArtifactName "db1" = "schema-db1.sql"
    ∧ parseDBTables [schemaArtifactName "db1"] = []
    ∧ parseFileName (statsFileName "db1" "t1") = some ("db1", "t1") := by
  decide

/-- C4 amended: for identifiers free of the reserved separator, the stats
artifact name written for (db, table) decodes back to exactly (db, table),
and the codec helper `schemaPath`'s per-table name also decodes back to
(db, table); but the per-database schema artifact name that schema export
actually writes, schema-db.sql, is skipped by the directory parse, so its
database is not recovered. -/
theorem C4_amended_roundtrip (db table : String)
    (hd : '-' ∉ db.data) (ht : '-' ∉ table.data) :
    parseFileName (statsFileName db table) = some (db, table)
    ∧ parseFileName (schemaPathName db table) = some (db, table)
    ∧ parseFileName (schemaArtifactName db) = none := by
  have hdash : "-".data = ['-'] := rfl
  refine ⟨?_, ?_, ?_⟩
  · refine (parseFileName_some_iff _ db table).mpr ⟨⟨hd, ht⟩, Or.inr ?_⟩
    simp [statsFileName, data_append, hdash]
  · refine (parseFileName_some_iff _ db table).mpr ⟨⟨hd, ht⟩, Or.inl ?_⟩
    simp [schemaPathName, data_append, hdash]
  · cases hp : parseFileName (schemaArtifactName db) with
    | none => rfl
    | some p =>
      exfalso
      obtain ⟨p1, p2⟩ := p
      have h := (parseFileName_some_iff _ p1 p2).mp hp
      have hn : (schemaArtifactName db).data
          = "schema-".data ++ (db.data ++ ".sql".data) := by
        simp [schemaArtifactName, data_append]
      rcases h.2 with hor | hor
      · have h2 : db.data ++ ".sql".data
            = (p1.data ++ '-' :: p2.data) ++ ".sql".data :=
          List.append_cancel_left (hn.symm.trans hor)
        have h3 : db.data = p1.data ++ '-' :: p2.data :=
          List.append_cancel_right h2
        exact hd (h3 ▸ List.mem_append_right p1.data (List.mem_cons_self '-' p2.data))
      · exact schema_stats_conflict _ _ (hn.symm.trans hor)

theorem C4_amended_witness :
    parseFileName (statsFileName "db1" "t1") = some ("db1", "t1")
    ∧ parseFileName (schemaPathName "db1" "t1") = some ("db1", "t1")
    ∧ parseFileName (schemaArtifactName "db1") = none :=
  C4_amended_roundtrip "db1" "t1" (by decide) (by decide)

/-- C7 counterexample: a response carrying a non-success HTTP status does
not abort the table's statistics export — its body is written verbatim as
the table's statistics artifact and the export reports success.  Here the
endpoint answers 500 with body "error page" and that body becomes the
artifact. -/
theorem C7_counterexample :
    exportTableStats (fun _ _ => some ⟨500, "error page"⟩) optFix "db1" "t1" fs0
      = (fs0.write (statsFileName "db1" "t1") (.statsBody "error page"), .ok ())
    ∧ (exportTableStats (fun _ _ => some ⟨500, "error page"⟩) optFix "db1" "t1" fs0).1.read
        (statsFileName "db1" "t1") = some (.statsBody "error page") := by
  decide

/-- C7 amended: only a transport-level failure of the GET (the Go
`http.Get` returning an error) aborts the table's statistics export, with
nothing written; any received response — whatever its HTTP status code —
has its body streamed verbatim into the artifact file, because the status
is never inspected. -/
theorem C7_amended_no_status_check (get : String → String → Option HTTPResponse)
    (opt : tidbAccessOptions) (db table : String) (fs : FS) :
    (get db table = none →
      exportTableStats get opt db table fs
        = (fs, .error (.httpGet (statsDumpURL opt db table))))
    ∧ (∀ resp, get db table = some resp →
      exportTableStats get opt db table fs
        = (fs.write (statsFileName db table) (.statsBody resp.body), .ok ())) := by
  constructor
  · intro h; simp [exportTableStats, h]
  · intro resp h; simp [exportTableStats, h]

theorem C7_amended_witness :
    exportTableStats (fun _ _ => none) optFix "db1" "t1" fs0
      = (fs0, .error (.httpGet (statsDumpURL optFix "db1" "t1")))
    ∧ exportTableStats (fun _ _ => some ⟨404, "nf"⟩) optFix "db1" "t1" fs0
      = (fs0.write (statsFileName "db1" "t1") (.statsBody "nf"), .ok ()) :=
  ⟨(C7_amended_no_status_check (fun _ _ => none) optFix "db1" "t1" fs0).1 rfl,
   (C7_amended_no_status_check (fun _ _ => some ⟨404, "nf"⟩) optFix "db1" "t1" fs0).2
     ⟨404, "nf"⟩ rfl⟩

/-! ## Schema-export lemmas -/

theorem collectSchemas_total
    (showCreate : String → String → Option (String × String)) (db : String)
    (tablesMap ignoreTables : List String) :
    ∀ (tables : List String),
      (∀ t ∈ tables, schemaTableSelected tablesMap ignoreTables t = true →
        ∃ row, showCreate db t = some row) →
      ∃ M, collectSchemas showCreate db tablesMap ignoreTables tables = .ok M
        ∧ ∀ t ∈ tables, schemaTableSelected tablesMap ignoreTables t = true →
            ∀ row, showCreate db t = some row → row ∈ M := by
  intro tables
  induction tables with
  | nil => intro _; exact ⟨[], rfl, by simp⟩
  | cons t ts ih =>
    intro hall
    obtain ⟨M, hM, hmem⟩ := ih (fun u hu => hall u (List.mem_cons_of_mem t hu))
    cases hst : schemaTableSelected tablesMap ignoreTables t with
    | false =>
      refine ⟨M, by simp [collectSchemas, hst, hM], ?_⟩
      intro u hu hsel row hrow
      rcases List.mem_cons.mp hu with rfl | hu2
      · rw [hsel] at hst; cases hst
      · exact hmem u hu2 hsel row hrow
    | true =>
      obtain ⟨row0, hrow0⟩ := hall t (List.mem_cons_self t ts) hst
      refine ⟨row0 :: M, by simp [collectSchemas, hst, hrow0, hM], ?_⟩
      intro u hu hsel row hrow
      rcases List.mem_cons.mp hu with rfl | hu2
      · have : row0 = row := Option.some.inj (hrow0.symm.trans hrow)
        subst this
        exact List.mem_cons_self _ _
      · exact List.mem_cons_of_mem _ (hmem u hu2 hsel row hrow)

theorem collectSchemas_abort
    (showCreate : String → String → Option (String × String)) (db : String)
    (tablesMap ignoreTables : List String) :
    ∀ (tables : List String),
      (∃ t ∈ tables, schemaTableSelected tablesMap ignoreTables t = true
        ∧ showCreate db t = none) →
      ∃ e, collectSchemas showCreate db tablesMap ignoreTables tables = .error e := by
  intro tables
  induction tables with
  | nil => rintro ⟨t, ht, _⟩; simp at ht
  | cons t ts ih =>
    rintro ⟨u, hu, hsel, hnone⟩
    cases hst : schemaTableSelected tablesMap ignoreTables t with
    | true =>
      cases hsc : showCreate db t with
      | none =>
        exact ⟨Err.showCreate (showCreateSQL db t), by simp [collectSchemas, hst, hsc]⟩
      | some row =>
        have hut : u ≠ t := by
          intro he; rw [he] at hnone; rw [hnone] at hsc; cases hsc
        have hu2 : u ∈ ts := (List.mem_cons.mp hu).resolve_left hut
        obtain ⟨e, he⟩ := ih ⟨u, hu2, hsel, hnone⟩
        exact ⟨e, by simp [collectSchemas, hst, hsc, he]⟩
    | false =>
      have hut : u ≠ t := by
        intro he; rw [he] at hsel; rw [hsel] at hst; cases hst
      have hu2 : u ∈ ts := (List.mem_cons.mp hu).resolve_left hut
      obtain ⟨e, he⟩ := ih ⟨u, hu2, hsel, hnone⟩
      exact ⟨e, by simp [collectSchemas, hst, he]⟩

/-- C5: schema export of one database is all-or-nothing.  When every
selected table's `show create table` succeeds, exactly one artifact is
written, containing an entry for every selected table; as soon as any
selected table's query or row scan fails, the database's export aborts
with an error and the file system is untouched — no partial artifact
exists.  Any schema-export error makes the whole export run fail, wrapped
as a schema-export error. -/
theorem C5_schema_export_all_or_nothing
    (tablesOf : String → Option (List String))
    (showCreate : String → String → Option (String × String))
    (db : String) (tablesMap ignoreTables : List String) (fs : FS)
    (tables : List String) (htab : tablesOf db = some tables) :
    ((∀ t ∈ tables, schemaTableSelected tablesMap ignoreTables t = true →
        ∃ row, showCreate db t = some row) →
      ∃ M, exportDBSchemas tablesOf showCreate db tablesMap ignoreTables fs
          = (fs.write (schemaArtifactName db) (.schemaMap M), .ok ())
        ∧ ∀ t ∈ tables, schemaTableSelected tablesMap ignoreTables t = true →
            ∀ row, showCreate db t = some row → row ∈ M)
    ∧ ((∃ t ∈ tables, schemaTableSelected tablesMap ignoreTables t = true
          ∧ showCreate db t = none) →
      (exportDBSchemas tablesOf showCreate db tablesMap ignoreTables fs).1 = fs
      ∧ ∃ e, (exportDBSchemas tablesOf showCreate db tablesMap ignoreTables fs).2
          = .error e)
    ∧ (∀ (get : String → String → Option HTTPResponse) (opt : tidbAccessOptions)
         (dbs : List String) (fs0 : FS) (e : Err),
        (exportSchemas tablesOf showCreate dbs tablesMap ignoreTables fs0).2 = .error e →
        (runExport tablesOf showCreate get opt dbs tablesMap ignoreTables fs0).2
          = .error (.wrap "export schemas" e)) := by
  refine ⟨?_, ?_, ?_⟩
  · intro hall
    obtain ⟨M, hM, hmem⟩ :=
      collectSchemas_total showCreate db tablesMap ignoreTables tables hall
    exact ⟨M, by simp [exportDBSchemas, htab, hM], hmem⟩
  · intro hfail
    obtain ⟨e, he⟩ :=
      collectSchemas_abort showCreate db tablesMap ignoreTables tables hfail
    exact ⟨by simp [exportDBSchemas, htab, he], e, by simp [exportDBSchemas, htab, he]⟩
  · intro get opt dbs fsa e herr
    simp [runExport, herr]

theorem C5_witness :
    ∃ M, exportDBSchemas tablesOf1 showCreateOK "db1" [] [] fs0
        = (fs0.write (schemaArtifactName "db1") (.schemaMap M), .ok ())
      ∧ ∀ t ∈ ["t1"], schemaTableSelected [] [] t = true →
          ∀ row, showCreateOK "db1" t = some row → row ∈ M :=
  (C5_schema_export_all_or_nothing tablesOf1 showCreateOK "db1" [] [] fs0 ["t1"] rfl).1
    (fun t _ _ => ⟨(t, "create table " ++ t), rfl⟩)

/-! ## Statistics-export lemmas -/

theorem exportStatsTables_abort (get : String → String → Option HTTPResponse)
    (opt : tidbAccessOptions) (db : String) (tablesMap ignoreTables : List String) :
    ∀ (tables : List String) (fs : FS),
      (∃ t ∈ tables, statsTableSelected tablesMap ignoreTables t = true
        ∧ get db t = none) →
      ∃ e, (exportStatsTables get opt db tables tablesMap ignoreTables fs).2
        = .error e := by
  intro tables
  induction tables with
  | nil => rintro fs ⟨t, ht, _⟩; simp at ht
  | cons t ts ih =>
    rintro fs ⟨u, hu, hsel, hget⟩
    cases hst : statsTableSelected tablesMap ignoreTables t with
    | true =>
      cases hgt : get db t with
      | none =>
        exact ⟨Err.wrap ("export DB: " ++ db ++ " table: " ++ t ++ " statistics")
            (Err.httpGet (statsDumpURL opt db t)),
          by simp [exportStatsTables, hst, exportTableStats, hgt]⟩
      | some resp =>
        have hut : u ≠ t := by
          intro he; rw [he] at hget; rw [hget] at hgt; cases hgt
        have hu2 : u ∈ ts := (List.mem_cons.mp hu).resolve_left hut
        obtain ⟨e, he⟩ :=
          ih (fs.write (statsFileName db t) (.statsBody resp.body)) ⟨u, hu2, hsel, hget⟩
        exact ⟨e, by simp [exportStatsTables, hst, exportTableStats, hgt, he]⟩
    | false =>
      have hut : u ≠ t := by
        intro he; rw [he] at hsel; rw [hsel] at hst; cases hst
      have hu2 : u ∈ ts := (List.mem_cons.mp hu).resolve_left hut
      obtain ⟨e, he⟩ := ih fs ⟨u, hu2, hsel, hget⟩
      exact ⟨e, by simp [exportStatsTables, hst, he]⟩

/-- C1 counterexample: with tables t1, t2, t3 where the diagnostic fetch
fails for t2 only, the statistics export does not complete with two
artifacts and one reported failure — it aborts at t2 with an error that is
returned to the run: t1's artifact was written, but t3's export never
happened. -/
theorem C1_counterexample :
    (exportStats getFailT2 optFix tablesOf3 ["db1"] [] [] fs0).2
      = .error (.wrap "export DB: db1 table: t2 statistics"
          (.httpGet (statsDumpURL optFix "db1" "t2")))
    ∧ (exportStats getFailT2 optFix tablesOf3 ["db1"] [] [] fs0).1.read
        (statsFileName "db1" "t3") = none
    ∧ (exportStats getFailT2 optFix tablesOf3 ["db1"] [] [] fs0).1.read
        (statsFileName "db1" "t1") = some (.statsBody "payload")
    ∧ (runExport tablesOf3 showCreateOK getFailT2 optFix ["db1"] [] [] fs0).2
      = .error (.wrap "export statistics information"
          (.wrap "export DB: db1 table: t2 statistics"
            (.httpGet (statsDumpURL optFix "db1" "t2")))) := by
  refine ⟨by decide, by decide, by decide, by decide⟩

/-- C1 amended: a single table's statistics-export failure is fatal.  When
some selected table's diagnostic fetch fails, the table loop aborts with
an error (the remaining sibling tables are skipped), the whole statistics
export over the databases returns that error, and the run's export phase
fails with it wrapped as a statistics-export error. -/
theorem C1_amended_stats_failure_fatal (get : String → String → Option HTTPResponse)
    (opt : tidbAccessOptions) (db : String) (tables : List String)
    (tablesMap ignoreTables : List String) (fs : FS)
    (h : ∃ t ∈ tables, statsTableSelected tablesMap ignoreTables t = true
      ∧ get db t = none) :
    (∃ e, (exportStatsTables get opt db tables tablesMap ignoreTables fs).2 = .error e)
    ∧ (∀ (tablesOf : String → Option (List String)) (rest : List String),
        tablesOf db = some tables →
        ∃ e, (exportStats get opt tablesOf (db :: rest) tablesMap ignoreTables fs).2
          = .error e)
    ∧ (∀ (tablesOf : String → Option (List String))
         (showCreate : String → String → Option (String × String))
         (dbs : List String) (fsa : FS) (e : Err),
        (exportSchemas tablesOf showCreate dbs tablesMap ignoreTables fsa).2 = .ok () →
        (exportStats get opt tablesOf dbs tablesMap ignoreTables
            (exportSchemas tablesOf showCreate dbs tablesMap ignoreTables fsa).1).2
          = .error e →
        (runExport tablesOf showCreate get opt dbs tablesMap ignoreTables fsa).2
          = .error (.wrap "export statistics information" e)) := by
  refine ⟨exportStatsTables_abort get opt db tablesMap ignoreTables tables fs h, ?_, ?_⟩
  · intro tablesOf rest htab
    obtain ⟨e, he⟩ :=
      exportStatsTables_abort get opt db tablesMap ignoreTables tables fs h
    exact ⟨e, by simp [exportStats, htab, he]⟩
  · intro tablesOf showCreate dbs fsa e hok herr
    simp [runExport, hok, herr]

theorem C1_amended_witness :
    ∃ e, (exportStatsTables getFailT2 optFix "db1" ["t1", "t2", "t3"] [] [] fs0).2
      = .error e :=
  (C1_amended_stats_failure_fatal getFailT2 optFix "db1" ["t1", "t2", "t3"] [] [] fs0
    ⟨"t2", by decide, by decide, by decide⟩).1

/-! ## Statistics-import lemmas -/

theorem importStatsFiles_abort (execOk : String → Bool) :
    ∀ (files : List String),
      (∃ f ∈ files, execOk (loadStatsSQL f) = false) →
      ∃ e, (importStatsFiles execOk files).2 = .error e := by
  intro files
  induction files with
  | nil => rintro ⟨f, hf, _⟩; simp at hf
  | cons f rest ih =>
    rintro ⟨g, hg, hfail⟩
    cases hex : execOk (loadStatsSQL f) with
    | false => exact ⟨Err.execSQL (loadStatsSQL f), by simp [importStatsFiles, hex]⟩
    | true =>
      have hgf : g ≠ f := by
        intro he; rw [he] at hfail; rw [hfail] at hex; cases hex
      have hg2 : g ∈ rest := (List.mem_cons.mp hg).resolve_left hgf
      obtain ⟨e, he⟩ := ih ⟨g, hg2, hfail⟩
      exact ⟨e, by simp [importStatsFiles, hex, he]⟩

/-- C6 counterexample: a failure to load one statistics artifact aborts
the whole run, not just that artifact's import.  With db1's artifacts for
t1 and t2 where only the t1 load fails, statistics import stops at t1 with
its error: the sibling artifact t2 is never loaded, and the run's import
phase fails. -/
theorem C6_counterexample :
    (importStats execFailT1 ["db1"] fsStats2).2
      = .error (.execSQL (loadStatsSQL "stats-db1-t1.json"))
    ∧ Action.exec (loadStatsSQL "stats-db1-t2.json")
        ∉ (importStats execFailT1 ["db1"] fsStats2).1
    ∧ (runImport execFailT1 ["db1"] fsStats2).2.2
      = .error (.wrap "import statistics information"
          (.execSQL (loadStatsSQL "stats-db1-t1.json"))) := by
  refine ⟨by decide, by decide, by decide⟩

/-- C6 amended: a per-artifact load failure is fatal.  When some globbed
statistics artifact of the first database fails to load, statistics import
returns that error at once (remaining artifacts and databases are
skipped), and the whole import run fails with it wrapped as a
statistics-import error. -/
theorem C6_amended_stats_import_fatal (execOk : String → Bool) (db : String)
    (rest : List String) (fs : FS)
    (h : ∃ f ∈ globStats db fs, execOk (loadStatsSQL f) = false) :
    (∃ e, (importStats execOk (db :: rest) fs).2 = .error e)
    ∧ (∀ (dbs : List String) (e : Err),
        (importSchemas execOk dbs fs).2 = .ok () →
        (importStats execOk dbs fs).2 = .error e →
        (runImport execOk dbs fs).2.2
          = .error (.wrap "import statistics information" e)) := by
  constructor
  · obtain ⟨e, he⟩ := importStatsFiles_abort execOk (globStats db fs) h
    exact ⟨e, by simp [importStats, he]⟩
  · intro dbs e hok herr
    simp [runImport, hok, herr]

theorem C6_amended_witness :
    ∃ e, (importStats execFailT1 ["db1"] fsStats2).2 = .error e :=
  (C6_amended_stats_import_fatal execFailT1 "db1" [] fsStats2
    ⟨"stats-db1-t1.json", by decide, by decide⟩).1

/-- C9: when a database's DDL artifact file is missing from the snapshot
directory at import time (and the create/use statements themselves
succeed), schema import fails with an error that names the missing path,
and the run aborts with no statistics-import action ever issued. -/
theorem C9_missing_schema_artifact_aborts (execOk : String → Bool) (db : String)
    (rest : List String) (fs : FS)
    (h1 : execOk (createDatabaseSQL db) = true)
    (h2 : execOk (useSQL db) = true)
    (h3 : fs.read (schemaArtifactName db) = none) :
    ∃ e, (runImport execOk (db :: rest) fs).2.2 = .error e
      ∧ e.mentionsPath (schemaArtifactName db) = true
      ∧ (runImport execOk (db :: rest) fs).2.1 = [] := by
  have hdb : (importDBSchema execOk db fs).2
      = .error (.readFile (schemaArtifactName db)) := by
    simp [importDBSchema, h1, h2, h3]
  have hsch : (importSchemas execOk (db :: rest) fs).2
      = .error (.readFile (schemaArtifactName db)) := by
    simp [importSchemas, hdb]
  refine ⟨.wrap "import schemas" (.readFile (schemaArtifactName db)), ?_, ?_, ?_⟩
  · simp [runImport, hsch]
  · simp [Err.mentionsPath]
  · simp [runImport, hsch]

theorem C9_witness :
    ∃ e, (runImport execAllOk ["db1"] fs0).2.2 = .error e
      ∧ e.mentionsPath (schemaArtifactName "db1") = true
      ∧ (runImport execAllOk ["db1"] fs0).2.1 = [] :=
  C9_missing_schema_artifact_aborts execAllOk "db1" [] fs0 rfl rfl rfl

end PCC
